import Mathlib

/-!
Shallow embedding of the admission-control layer of the gojjo-mcp server
(src/security/rate_limiter.py and src/security/auth.py), together with
theorems settling the frozen claims about it.

Time is modelled by rationals (Python floats are used only for arithmetic
the claims state over exact values), and Python `int(x)` truncation toward
zero is modelled by truncQ below.
-/

/-- Python int() applied to a rational: truncation toward zero. -/
def truncQ (q : ℚ) : ℤ :=
  if q < 0 then -(Int.ediv (-q).num (((-q).den : ℤ))) else Int.ediv q.num ((q.den : ℤ))

/-- TokenBucket state (rate_limiter.py lines 51-58): capacity and refill
rate are fixed at construction, tokens starts at capacity, last_refill at
the creation time. -/
structure TokenBucket where
  capacity : ℤ
  refill_rate : ℚ
  tokens : ℚ
  last_refill : ℚ
deriving DecidableEq

/-- TokenBucket construction (rate_limiter.py lines 54-58): tokens =
capacity, last_refill = the current time. -/
def TokenBucket.mkBucket (capacity : ℤ) (refill_rate : ℚ) (now : ℚ) : TokenBucket :=
  { capacity := capacity, refill_rate := refill_rate,
    tokens := (capacity : ℚ), last_refill := now }

/-- TokenBucket.consume (rate_limiter.py lines 60-74): refill lazily from
elapsed time (clamped to capacity), update last_refill, then subtract when
enough tokens are present.  The requested amount is a Python int. -/
def TokenBucket.consume (b : TokenBucket) (n : ℤ) (now : ℚ) : Bool × TokenBucket :=
  let elapsed := now - b.last_refill
  let refilled := min ((b.capacity : ℚ)) (b.tokens + elapsed * b.refill_rate)
  let b' : TokenBucket := { b with tokens := refilled, last_refill := now }
  if (n : ℚ) ≤ refilled then
    (true, { b' with tokens := refilled - (n : ℚ) })
  else
    (false, b')

/-- TokenBucket.get_wait_time (rate_limiter.py lines 76-82): pure, no
refill and no mutation. -/
def TokenBucket.get_wait_time (b : TokenBucket) (n : ℤ) : ℚ :=
  if (n : ℚ) ≤ b.tokens then 0 else ((n : ℚ) - b.tokens) / b.refill_rate

/-- Circuit breaker states (rate_limiter.py line 100). -/
inductive BreakerState where
  | CLOSED
  | OPEN
  | HALF_OPEN
deriving DecidableEq

/-- CircuitBreaker state (rate_limiter.py lines 85-100).  The
expected_exception class filter is not modelled: the protected call's
outcome is passed as a boolean (true = returned normally, false = raised
an expected exception). -/
structure CircuitBreaker where
  failure_threshold : ℕ
  timeout : ℚ
  failure_count : ℕ
  last_failure_time : Option ℚ
  state : BreakerState
deriving DecidableEq

/-- CircuitBreaker construction (rate_limiter.py lines 88-100). -/
def CircuitBreaker.mkBreaker (failure_threshold : ℕ) (timeout : ℚ) : CircuitBreaker :=
  { failure_threshold := failure_threshold, timeout := timeout,
    failure_count := 0, last_failure_time := none, state := BreakerState.CLOSED }

/-- Result of one CircuitBreaker.call: rejected without invoking the
protected function (with the remaining-cooldown figure reported in the
raised message), or invoked and returned, or invoked and raised. -/
inductive CallOutcome where
  | rejected (retry_after : ℚ)
  | succeeded
  | failed
deriving DecidableEq

/-- CircuitBreaker.call (rate_limiter.py lines 102-128) at time `now`,
where `funcOk` tells whether the protected function would return normally.
In the OPEN state the code reads time.time() twice in quick succession
(lines 106 and 109); both reads are modelled as `now`. -/
def CircuitBreaker.call (b : CircuitBreaker) (now : ℚ) (funcOk : Bool) :
    CallOutcome × CircuitBreaker :=
  let afterOpenCheck : Option (ℚ × CircuitBreaker) :=
    if b.state = BreakerState.OPEN then
      match b.last_failure_time with
      | some lf =>
          if b.timeout < now - lf then none
          else some (b.timeout - (now - lf), b)
      | none => none
    else none
  match afterOpenCheck with
  | some (retry, b0) => (CallOutcome.rejected retry, b0)
  | none =>
      let b1 : CircuitBreaker :=
        if b.state = BreakerState.OPEN then { b with state := BreakerState.HALF_OPEN } else b
      if funcOk then
        let b2 := if b1.state = BreakerState.HALF_OPEN
                  then { b1 with state := BreakerState.CLOSED } else b1
        (CallOutcome.succeeded, { b2 with failure_count := 0 })
      else
        let cnt := b1.failure_count + 1
        let b2 : CircuitBreaker :=
          { b1 with failure_count := cnt, last_failure_time := some now }
        let b3 := if b2.failure_threshold ≤ cnt
                  then { b2 with state := BreakerState.OPEN } else b2
        (CallOutcome.failed, b3)

/-- Types of rate limiting (rate_limiter.py lines 20-27). -/
inductive RateLimitType where
  | REQUESTS_PER_SECOND
  | REQUESTS_PER_MINUTE
  | REQUESTS_PER_HOUR
  | REQUESTS_PER_DAY
  | API_CALLS_PER_HOUR
  | COST_BASED
deriving DecidableEq

/-- The .value string of each RateLimitType member. -/
def RateLimitType.value : RateLimitType → String
  | REQUESTS_PER_SECOND => "rps"
  | REQUESTS_PER_MINUTE => "rpm"
  | REQUESTS_PER_HOUR => "rph"
  | REQUESTS_PER_DAY => "rpd"
  | API_CALLS_PER_HOUR => "api_cph"
  | COST_BASED => "cost"

/-- Rate limiting rule configuration (rate_limiter.py lines 30-37). -/
structure RateLimitRule where
  limit : ℤ
  window_seconds : ℤ
  burst_limit : Option ℤ := none
  cost_per_request : ℚ := 1
  reset_on_success : Bool := false
deriving DecidableEq

/-- Rate limiting result (rate_limiter.py lines 40-48). -/
structure RateLimitResult where
  allowed : Bool
  limit : ℤ
  remaining : ℤ
  reset_time : ℤ
  retry_after : Option ℤ := none
  cost_used : ℚ := 0
  reason : Option String := none
deriving DecidableEq

/-- Python truthiness of Optional[int]: None and 0 are falsy
(`if rule.burst_limit:` at rate_limiter.py line 244). -/
def truthyOpt (o : Option ℤ) : Bool :=
  match o with
  | none => false
  | some v => v ≠ 0

def reasonBucket : String := "Token bucket depleted"
def reasonWindow : String := "Sliding window limit exceeded"
def reasonRedis : String := "Rate limit exceeded"

/-- The popleft loop of _local_rate_limit (rate_limiter.py lines 277-278):
drop leading entries with timestamp ≤ cutoff. -/
def pruneWindow (w : List ℚ) (cutoff : ℚ) : List ℚ :=
  match w with
  | [] => []
  | t :: rest => if t ≤ cutoff then pruneWindow rest cutoff else t :: rest

/-- The sliding-window branch of _local_rate_limit (rate_limiter.py lines
273-307), acting on the deque stored for one key.  Returns the result and
the mutated deque. -/
def local_window_limit (rule : RateLimitRule) (cost now : ℚ) (w : List ℚ) :
    RateLimitResult × List ℚ :=
  let w1 := pruneWindow w (now - (rule.window_seconds : ℚ))
  let current_count := w1.length
  if (current_count : ℚ) + cost ≤ (rule.limit : ℚ) then
    ({ allowed := true, limit := rule.limit,
       remaining := truncQ ((rule.limit : ℚ) - (current_count : ℚ) - cost),
       reset_time := truncQ (now + (rule.window_seconds : ℚ)),
       cost_used := cost },
     w1 ++ [now])
  else
    let oldest_time := w1.headD now
    ({ allowed := false, limit := rule.limit, remaining := 0,
       reset_time := truncQ (now + (rule.window_seconds : ℚ)),
       retry_after := some (max 1 (truncQ (oldest_time + (rule.window_seconds : ℚ) - now))),
       cost_used := 0, reason := some reasonWindow },
     w1)

/-- The keep-predicate of the zremrangebyscore step of _redis_rate_limit
(rate_limiter.py line 183): an entry survives unless its score lies in
[0, cutoff]. -/
def redisPruneKeep (cutoff : ℚ) (e : ℕ × ℚ) : Bool :=
  !(decide (0 ≤ e.2 ∧ e.2 ≤ cutoff))

/-- The keep-predicate of the compensating zrem step of _redis_rate_limit
(rate_limiter.py line 215): every member other than the one just added. -/
def keepNotMember (m : ℕ) (e : ℕ × ℚ) : Bool :=
  !(decide (e.1 = m))

/-- Sequential model of the Redis sorted set used by _redis_rate_limit:
a list of (member, score) pairs kept in ascending score order, member
identifiers made globally unique by a counter (the code builds them from
the timestamp and the running task id, rate_limiter.py line 189). -/
def zaddSorted (z : List (ℕ × ℚ)) (m : ℕ) (s : ℚ) : List (ℕ × ℚ) :=
  match z with
  | [] => [(m, s)]
  | e :: rest => if s < e.2 then (m, s) :: e :: rest else e :: zaddSorted rest m s

/-- _redis_rate_limit (rate_limiter.py lines 170-232) for one key, run
against the sequential sorted-set model: the pipeline removes entries with
score in [0, now - window], counts the survivors, speculatively adds the
fresh member at score now, and on denial the member is removed again and
retry_after is derived from the oldest surviving entry.  The TTL refresh
(pipe.expire) never outlives the score-range pruning and is not modelled
separately. -/
def redis_rate_limit (rule : RateLimitRule) (cost now : ℚ) (m : ℕ)
    (z : List (ℕ × ℚ)) : RateLimitResult × List (ℕ × ℚ) :=
  let z1 := z.filter (redisPruneKeep (now - (rule.window_seconds : ℚ)))
  let current_count := z1.length
  let z2 := zaddSorted z1 m now
  let cost_adjusted_count := (current_count : ℚ) * rule.cost_per_request
  if cost_adjusted_count + cost ≤ (rule.limit : ℚ) then
    ({ allowed := true, limit := rule.limit,
       remaining := truncQ ((rule.limit : ℚ) - cost_adjusted_count - cost),
       reset_time := truncQ (now + (rule.window_seconds : ℚ)),
       cost_used := cost },
     z2)
  else
    let z3 := z2.filter (keepNotMember m)
    let retry_after :=
      match z3.head? with
      | some e => truncQ (e.2 + (rule.window_seconds : ℚ) - now)
      | none => rule.window_seconds
    ({ allowed := false, limit := rule.limit, remaining := 0,
       reset_time := truncQ (now + (rule.window_seconds : ℚ)),
       retry_after := some (max 1 retry_after),
       cost_used := 0, reason := some reasonRedis },
     z3)

/-- Run a sequence of (now, cost) checks through the local sliding window
of one key. -/
def localRun (rule : RateLimitRule) (calls : List (ℚ × ℚ)) (w : List ℚ) :
    List RateLimitResult × List ℚ :=
  match calls with
  | [] => ([], w)
  | (now, cost) :: rest =>
      let step := local_window_limit rule cost now w
      let tail := localRun rule rest step.2
      (step.1 :: tail.1, tail.2)

/-- Run a sequence of (now, cost) checks through the distributed sliding
window of one key, generating fresh members from the counter c. -/
def redisRun (rule : RateLimitRule) (calls : List (ℚ × ℚ)) (z : List (ℕ × ℚ))
    (c : ℕ) : List RateLimitResult × List (ℕ × ℚ) × ℕ :=
  match calls with
  | [] => ([], z, c)
  | (now, cost) :: rest =>
      let step := redis_rate_limit rule cost now c z
      let tail := redisRun rule rest step.2 (c + 1)
      (step.1 :: tail.1, tail.2)

/-- Replace-or-append assignment for an association list, modelling Python
dict item assignment (existing key keeps its position). -/
def setKey {α : Type} [DecidableEq α] {β : Type} (l : List (α × β)) (k : α) (v : β) :
    List (α × β) :=
  match l with
  | [] => [(k, v)]
  | e :: rest => if e.1 = k then (k, v) :: rest else e :: setKey rest k v

/-- First-match lookup in an association list, modelling Python dict
access. -/
def getKey {α : Type} [DecidableEq α] {β : Type} (l : List (α × β)) (k : α) : Option β :=
  match l with
  | [] => none
  | e :: rest => if e.1 = k then some e.2 else getKey rest k

/-- In-memory state of a RateLimiter without a Redis client
(rate_limiter.py lines 134-137): local_buckets and local_windows, keyed by
the composite request key. -/
structure LimiterState where
  local_buckets : List (String × TokenBucket)
  local_windows : List (String × List ℚ)
deriving DecidableEq

def bucketSuffix : String := ":bucket"

/-- _local_rate_limit (rate_limiter.py lines 234-307): when the rule's
burst_limit is truthy a token bucket (created lazily with capacity
burst_limit and refill rate limit/window) absorbs the request, otherwise
the sliding window for the key is consulted. -/
def local_rate_limit (st : LimiterState) (key : String) (rule : RateLimitRule)
    (cost now : ℚ) : RateLimitResult × LimiterState :=
  if truthyOpt rule.burst_limit then
    let bucket_key := key ++ bucketSuffix
    let bucket :=
      match getKey st.local_buckets bucket_key with
      | some b => b
      | none => TokenBucket.mkBucket (rule.burst_limit.getD 0)
                  ((rule.limit : ℚ) / (rule.window_seconds : ℚ)) now
    let tokens_needed := truncQ cost
    let step := bucket.consume tokens_needed now
    let st' : LimiterState :=
      { st with local_buckets := setKey st.local_buckets bucket_key step.2 }
    if step.1 then
      ({ allowed := true, limit := rule.limit,
         remaining := truncQ step.2.tokens,
         reset_time := truncQ (now + (rule.window_seconds : ℚ)),
         cost_used := cost }, st')
    else
      let wait_time := step.2.get_wait_time tokens_needed
      ({ allowed := false, limit := rule.limit, remaining := 0,
         reset_time := truncQ (now + (rule.window_seconds : ℚ)),
         retry_after := some (truncQ wait_time + 1),
         cost_used := 0, reason := some reasonBucket }, st')
  else
    let w := (getKey st.local_windows key).getD []
    let step := local_window_limit rule cost now w
    (step.1, { st with local_windows := setKey st.local_windows key step.2 })

/-- Default rules of a RateLimiter (rate_limiter.py lines 141-146). -/
def default_rules (t : RateLimitType) : Option RateLimitRule :=
  match t with
  | RateLimitType.REQUESTS_PER_SECOND =>
      some { limit := 10, window_seconds := 1, burst_limit := some 20 }
  | RateLimitType.REQUESTS_PER_MINUTE =>
      some { limit := 100, window_seconds := 60, burst_limit := some 150 }
  | RateLimitType.REQUESTS_PER_HOUR =>
      some { limit := 1000, window_seconds := 3600, burst_limit := some 1200 }
  | RateLimitType.API_CALLS_PER_HOUR =>
      some { limit := 100, window_seconds := 3600, cost_per_request := 1 }
  | _ => none

def keySep : String := ":"

/-- RateLimiter.is_allowed (rate_limiter.py lines 148-168) for a limiter
without a Redis client: resolve the rule (falling back to the default
table; a missing rule allows with limit 999999), build the composite key,
and run the local path. -/
def is_allowed (st : LimiterState) (identifier : String) (limit_type : RateLimitType)
    (rule? : Option RateLimitRule) (cost now : ℚ) : RateLimitResult × LimiterState :=
  let resolved := match rule? with
                  | some r => some r
                  | none => default_rules limit_type
  match resolved with
  | none => ({ allowed := true, limit := 999999, remaining := 999999, reset_time := 0 }, st)
  | some rule =>
      let key := identifier ++ keySep ++ limit_type.value
      local_rate_limit st key rule cost now

/-- check_multiple_limits (rate_limiter.py lines 536-549): evaluate rules
in order with the default cost 1, returning the first denial immediately;
when every rule allows, return the permissive summary result. -/
def check_multiple_limits (st : LimiterState) (identifier : String)
    (limits : List (RateLimitType × RateLimitRule)) (now : ℚ) :
    RateLimitResult × LimiterState :=
  match limits with
  | [] => ({ allowed := true, limit := 999999, remaining := 999999, reset_time := 0 }, st)
  | (limit_type, rule) :: rest =>
      let step := is_allowed st identifier limit_type (some rule) 1 now
      if step.1.allowed then check_multiple_limits step.2 identifier rest now
      else (step.1, step.2)

/-- DDoSProtection state (rate_limiter.py lines 485-488). -/
structure DDoSState where
  suspicious_ips : List (String × ℚ)
  blocked_ips : List (String × ℚ)
deriving DecidableEq

/-- DDoSProtection.is_suspicious (rate_limiter.py lines 490-512): prune
suspicion entries older than 3600 s and block entries older than 86400 s,
answer true for a blocked IP, and promote a suspicion flagged within the
last 300 s to a block stamped with the current time. -/
def is_suspicious (st : DDoSState) (client_ip : String) (now : ℚ) : Bool × DDoSState :=
  let s := st.suspicious_ips.filter (fun e => decide (now - e.2 < 3600))
  let b := st.blocked_ips.filter (fun e => decide (now - e.2 < 86400))
  if (getKey b client_ip).isSome then
    (true, { suspicious_ips := s, blocked_ips := b })
  else
    match getKey s client_ip with
    | some ts =>
        if now - ts < 300 then
          (true, { suspicious_ips := s, blocked_ips := setKey b client_ip now })
        else
          (false, { suspicious_ips := s, blocked_ips := b })
    | none => (false, { suspicious_ips := s, blocked_ips := b })

/-- DDoSProtection.mark_suspicious (rate_limiter.py lines 514-516). -/
def mark_suspicious (st : DDoSState) (client_ip : String) (now : ℚ) : DDoSState :=
  { st with suspicious_ips := setKey st.suspicious_ips client_ip now }

/-- Fold is_suspicious over a list of call times for one IP, conjoining
the returned flags. -/
def is_suspicious_all (st : DDoSState) (client_ip : String) (times : List ℚ) : Bool :=
  match times with
  | [] => true
  | t :: rest =>
      let step := is_suspicious st client_ip t
      step.1 && is_suspicious_all step.2 client_ip rest

/-- User roles (auth.py lines 25-31). -/
inductive UserRole where
  | ANONYMOUS
  | BASIC
  | PREMIUM
  | DEVELOPER
  | ADMIN
deriving DecidableEq

/-- API key classes (auth.py lines 34-39). -/
inductive APIKeyType where
  | TEMPORARY
  | STANDARD
  | PREMIUM
  | PERMANENT
deriving DecidableEq

/-- Rate limiting configuration per role (auth.py lines 42-47). -/
structure RateLimitConfig where
  requests_per_hour : ℤ
  burst_limit : ℤ
  cost_multiplier : ℚ := 1
deriving DecidableEq

/-- The RATE_LIMITS table (auth.py lines 51-57). -/
def RATE_LIMITS : UserRole → RateLimitConfig
  | UserRole.ANONYMOUS => { requests_per_hour := 100, burst_limit := 20, cost_multiplier := 3/2 }
  | UserRole.BASIC => { requests_per_hour := 1000, burst_limit := 50, cost_multiplier := 1 }
  | UserRole.PREMIUM => { requests_per_hour := 5000, burst_limit := 100, cost_multiplier := 4/5 }
  | UserRole.DEVELOPER => { requests_per_hour := 10000, burst_limit := 200, cost_multiplier := 3/5 }
  | UserRole.ADMIN => { requests_per_hour := 999999, burst_limit := 999, cost_multiplier := 1/10 }

/-- API key record (auth.py lines 60-73).  Timestamps are on the same
rational clock as the rest of the model. -/
structure APIKey where
  key_id : String
  key_hash : String
  user_id : String
  role : UserRole
  key_type : APIKeyType
  created_at : ℚ
  expires_at : Option ℚ
  is_active : Bool := true
  description : String := ""
  ip_whitelist : List String := []
  usage_count : ℕ := 0
  last_used : Option ℚ := none
deriving DecidableEq

/-- Authentication result (auth.py lines 76-83). -/
structure AuthResult where
  success : Bool
  user_id : Option String := none
  role : UserRole := UserRole.ANONYMOUS
  api_key : Option APIKey := none
  error : Option String := none
  rate_limit : Option RateLimitConfig := none
deriving DecidableEq

/-- The fixed api_key_prefix of AuthManager (auth.py line 92).  Note it
itself contains an underscore. -/
def api_key_start : String := "gojjo_mcp"

def underscoreStr : String := "_"

/-- Characters secrets.token_urlsafe can emit: the base64url alphabet,
which includes the underscore. -/
def urlsafeChar (c : Char) : Bool :=
  c.isAlphanum || c = '-' || c = '_'

def urlsafeStr (s : String) : Bool := s.data.all urlsafeChar

/-- Key-class expiry offsets applied by generate_api_key (auth.py lines
114-122): 24 hours, 30 days, 365 days, or none. -/
def expiryFor (t : APIKeyType) (now : ℚ) : Option ℚ :=
  match t with
  | APIKeyType.TEMPORARY => some (now + 24 * 3600)
  | APIKeyType.STANDARD => some (now + 30 * 86400)
  | APIKeyType.PREMIUM => some (now + 365 * 86400)
  | APIKeyType.PERMANENT => none

/-- AuthManager.generate_api_key (auth.py lines 96-144).  The random
key_id and raw_key drawn from secrets.token_urlsafe are passed in
explicitly; sha256 hashing is abstracted by the `hash` parameter.  Returns
the plaintext credential and the stored record. -/
def generate_api_key (hash : String → String) (user_id : String) (role : UserRole)
    (key_type : APIKeyType) (description : String) (ip_whitelist : List String)
    (key_id raw_key : String) (now : ℚ) : String × APIKey :=
  let full_key := api_key_start ++ underscoreStr ++ key_id ++ underscoreStr ++ raw_key
  (full_key,
   { key_id := key_id, key_hash := hash full_key, user_id := user_id, role := role,
     key_type := key_type, created_at := now, expires_at := expiryFor key_type now,
     is_active := true, description := description, ip_whitelist := ip_whitelist,
     usage_count := 0, last_used := none })

def errFormat : String := "Invalid API key format"
def errNotFound : String := "API key not found"
def errUnavailable : String := "Authentication service unavailable"
def errHash : String := "Invalid API key"
def errDisabled : String := "API key is disabled"
def errExpired : String := "API key has expired"
def errIp : String := "IP address not authorized"

/-- One cache slot of AuthManager.key_cache: the cached record and its
expiry stamp (auth.py lines 225-228). -/
structure CacheEntry where
  data : APIKey
  expires : ℚ
deriving DecidableEq

/-- AuthManager.authenticate_api_key (auth.py lines 146-252).  `store`
models the Redis key space api_key:{key_id} (none = no Redis client) and
`cache` the in-memory key_cache; sha256 is the abstract `hash`.  Returns
the AuthResult together with the updated cache. -/
def authenticate_api_key (hash : String → String)
    (store : Option (List (String × APIKey))) (cache : List (String × CacheEntry))
    (api_key : String) (client_ip : Option String) (now : ℚ) :
    AuthResult × List (String × CacheEntry) :=
  if !(api_key.startsWith (api_key_start ++ underscoreStr)) then
    ({ success := false, error := some errFormat }, cache)
  else
    let parts := api_key.splitOn underscoreStr
    if parts.length ≠ 4 then
      ({ success := false, error := some errFormat }, cache)
    else
      let key_id := parts.getD 2 ""
      let fromCache : Option APIKey :=
        match getKey cache key_id with
        | some entry => if now < entry.expires then some entry.data else none
        | none => none
      let resolved : Option (Option APIKey) :=
        match fromCache with
        | some obj => some (some obj)
        | none =>
            match store with
            | some kv => some (getKey kv key_id)
            | none => none
      match resolved with
      | none => ({ success := false, error := some errUnavailable }, cache)
      | some none => ({ success := false, error := some errNotFound }, cache)
      | some (some obj) =>
          if hash api_key ≠ obj.key_hash then
            ({ success := false, error := some errHash }, cache)
          else if !obj.is_active then
            ({ success := false, error := some errDisabled }, cache)
          else if (match obj.expires_at with
                   | some e => decide (e < now)
                   | none => false) then
            ({ success := false, error := some errExpired }, cache)
          else if (match obj.ip_whitelist, client_ip with
                   | [], _ => false
                   | _, none => false
                   | wl, some ip => !(wl.contains ip)) then
            ({ success := false, error := some errIp }, cache)
          else
            let obj' := { obj with usage_count := obj.usage_count + 1,
                                   last_used := some now }
            let cache' := setKey cache key_id { data := obj', expires := now + 300 }
            ({ success := true, user_id := some obj'.user_id, role := obj'.role,
               api_key := some obj', rate_limit := some (RATE_LIMITS obj'.role) },
             cache')

/-- Run a sequence of (n, now) consume calls against a bucket. -/
def consumeRun (b : TokenBucket) (calls : List (ℤ × ℚ)) : TokenBucket :=
  match calls with
  | [] => b
  | (n, t) :: rest => consumeRun (b.consume n t).2 rest

/-- The admission triple of a RateLimitResult the equivalence claim
compares: allowed flag, remaining count and retry_after. -/
def projRL (r : RateLimitResult) : Bool × ℤ × Option ℤ :=
  (r.allowed, r.remaining, r.retry_after)

/-- Evaluate a rule list the way check_multiple_limits does, returning the
reached state when every rule allows and none when some rule denies. -/
def allAllowedRun (st : LimiterState) (identifier : String)
    (limits : List (RateLimitType × RateLimitRule)) (now : ℚ) : Option LimiterState :=
  match limits with
  | [] => some st
  | (limit_type, rule) :: rest =>
      let step := is_allowed st identifier limit_type (some rule) 1 now
      if step.1.allowed then allAllowedRun step.2 identifier rest now else none

/-- A possible output of secrets.token_urlsafe(16) (22 base64url
characters) that contains an underscore. -/
def keyIdU : String := "ab_cdefghijklmnopqrstu"

/-- A possible output of secrets.token_urlsafe(32) (43 base64url
characters) without an underscore. -/
def rawKeyU : String := "ABCDEFGHIJKLMNOPQRSTUVWXYZabcdefghijk012345"

/-- An underscore-free possible output of secrets.token_urlsafe(16). -/
def keyIdOk : String := "abcdefghijklmnopqrstuv"

/-- A drained bucket reachable from a fresh capacity-10 rate-1 bucket. -/
def bDrained : TokenBucket := ((TokenBucket.mkBucket 10 1 0).consume 10 0).2

/-- An open circuit breaker with failure_threshold 3, cooldown 60,
failure count c and last failure at time L. -/
def bOpen (c : ℕ) (L : ℚ) : CircuitBreaker :=
  { failure_threshold := 3, timeout := 60, failure_count := c,
    last_failure_time := some L, state := BreakerState.OPEN }

/-- A concrete stand-in for the abstract hash parameter, used only in
closed evaluations where the hash value itself is irrelevant. -/
def idHash : String → String := fun s => s

/-- A well-formed credential string: correct prefix and exactly four
underscore-delimited segments. -/
def wfKey : String := "gojjo_mcp_id1_secret"

/-- A stored record for key identifier id1 whose hash does not match the
recomputed hash of wfKey. -/
def recMismatch : APIKey :=
  { key_id := "id1", key_hash := "stored", user_id := "u", role := UserRole.BASIC,
    key_type := APIKeyType.STANDARD, created_at := 0, expires_at := none }

/-- A rule allowing one request per 10 s, used as the first rule of the
multi-rule counterexample. -/
def ruleA : RateLimitRule := { limit := 1, window_seconds := 10 }

/-- A rule allowing one request per 100 s, more restrictive at the
counterexample instant, used as the second rule. -/
def ruleB : RateLimitRule := { limit := 1, window_seconds := 100 }

/-- Pre-populated limiter state for the multi-rule counterexample: the
per-second window of identifier u holds an entry at t=95, the per-minute
window one at t=50. -/
def stC6 : LimiterState :=
  { local_buckets := [],
    local_windows := [(("u:rps"), [95]), (("u:rpm"), [50])] }

/-- A plain 3-per-60 s rule. -/
def ruleC4 : RateLimitRule := { limit := 3, window_seconds := 60 }

/-- The 3-per-60 s rule with cost_per_request 2. -/
def ruleCpr2 : RateLimitRule := { limit := 3, window_seconds := 60, cost_per_request := 2 }

/-- The 3-per-60 s rule with a burst allowance of 5. -/
def ruleBurst : RateLimitRule := { limit := 3, window_seconds := 60, burst_limit := some 5 }

theorem truncQ_intCast (n : ℤ) : truncQ ((n : ℚ)) = n := by
  unfold truncQ
  by_cases h : (n : ℚ) < 0
  · simp only [h, if_true]
    rw [show (-(n : ℚ)) = (((-n : ℤ) : ℚ)) by push_cast; ring]
    simp only [Rat.num_intCast, Rat.den_intCast, Nat.cast_one]
    rw [show Int.ediv (-n) 1 = -n from Int.ediv_one (-n), neg_neg]
  · simp only [h, if_false]
    simp only [Rat.num_intCast, Rat.den_intCast, Nat.cast_one]
    exact Int.ediv_one n

theorem truncQ_natCast (n : ℕ) : truncQ ((n : ℚ)) = n := by
  have := truncQ_intCast (n : ℤ)
  simpa using this

theorem consume_inv (b : TokenBucket) (n : ℤ) (now : ℚ)
    (hcap : 0 ≤ b.capacity) (hrate : 0 ≤ b.refill_rate) (htok : 0 ≤ b.tokens)
    (hlr : b.last_refill ≤ now) (hn : 0 ≤ n) :
    0 ≤ (b.consume n now).2.tokens ∧
    (b.consume n now).2.tokens ≤ ((b.consume n now).2.capacity : ℚ) ∧
    (b.consume n now).2.capacity = b.capacity ∧
    (b.consume n now).2.refill_rate = b.refill_rate ∧
    (b.consume n now).2.last_refill = now := by
  unfold TokenBucket.consume
  have hcapQ : (0 : ℚ) ≤ (b.capacity : ℚ) := by exact_mod_cast hcap
  have hplus : 0 ≤ b.tokens + (now - b.last_refill) * b.refill_rate :=
    add_nonneg htok (mul_nonneg (by linarith) hrate)
  have h0 : 0 ≤ min ((b.capacity : ℚ)) (b.tokens + (now - b.last_refill) * b.refill_rate) :=
    le_min hcapQ hplus
  have hub : min ((b.capacity : ℚ)) (b.tokens + (now - b.last_refill) * b.refill_rate)
      ≤ (b.capacity : ℚ) := min_le_left _ _
  have hnQ : (0 : ℚ) ≤ (n : ℚ) := by exact_mod_cast hn
  by_cases hc : (n : ℚ) ≤ min ((b.capacity : ℚ))
      (b.tokens + (now - b.last_refill) * b.refill_rate)
  · simp only [hc, if_true]
    exact ⟨by linarith, by linarith, trivial, trivial, trivial⟩
  · simp only [hc, if_false]
    exact ⟨h0, hub, trivial, trivial, trivial⟩

theorem consumeRun_inv (calls : List (ℤ × ℚ)) : ∀ (b : TokenBucket),
    0 ≤ b.capacity → 0 ≤ b.refill_rate → 0 ≤ b.tokens → b.tokens ≤ (b.capacity : ℚ) →
    List.Chain' (fun a b => a ≤ b) (b.last_refill :: calls.map Prod.snd) →
    (∀ p ∈ calls, 0 ≤ p.1) →
    0 ≤ (consumeRun b calls).tokens ∧
    (consumeRun b calls).tokens ≤ ((consumeRun b calls).capacity : ℚ) ∧
    (consumeRun b calls).capacity = b.capacity := by
  induction calls with
  | nil => intro b hcap hrate htok htokle _ _; exact ⟨htok, htokle, rfl⟩
  | cons hd tl ih =>
      obtain ⟨n, t⟩ := hd
      intro b hcap hrate htok htokle hchain hns
      have hchain' := List.chain'_cons.mp hchain
      have hlr : b.last_refill ≤ t := hchain'.1
      have step := consume_inv b n t hcap hrate htok hlr
        (hns (n, t) (List.mem_cons_self _ _))
      have hcap' : (b.consume n t).2.capacity = b.capacity := step.2.2.1
      have hrest := ih (b.consume n t).2
        (by rw [hcap']; exact hcap)
        (by rw [step.2.2.2.1]; exact hrate)
        step.1
        step.2.1
        (by rw [step.2.2.2.2]; exact hchain'.2)
        (fun p hp => hns p (List.mem_cons_of_mem _ hp))
      refine ⟨hrest.1, hrest.2.1, ?_⟩
      rw [show consumeRun b ((n, t) :: tl) = consumeRun (b.consume n t).2 tl from rfl,
        hrest.2.2, hcap']

/-- Claim C7: for every bucket created with nonnegative capacity C and
positive refill rate, and every sequence of nonnegative consume requests
at non-decreasing timestamps, the token count stays within [0, C] after
every call (get_wait_time is a pure function and touches no state); and
for capacity 10, refill rate 1 token/s: consume(10) at t=0 succeeds, an
immediate consume(1) fails, consume(5) at t=5 succeeds and a further
consume(1) at t=5 fails. -/
theorem tokenBucket_invariant_and_scenario :
    (∀ (C : ℤ) (r t0 : ℚ) (calls pre post : List (ℤ × ℚ)),
      0 ≤ C → 0 < r → (∀ p ∈ calls, 0 ≤ p.1) →
      List.Chain' (fun a b => a ≤ b) (t0 :: calls.map Prod.snd) →
      calls = pre ++ post →
      0 ≤ (consumeRun (TokenBucket.mkBucket C r t0) pre).tokens ∧
      (consumeRun (TokenBucket.mkBucket C r t0) pre).tokens ≤ (C : ℚ)) ∧
    (((TokenBucket.mkBucket 10 1 0).consume 10 0).1 = true ∧
     ((((TokenBucket.mkBucket 10 1 0).consume 10 0).2).consume 1 0).1 = false ∧
     (((((TokenBucket.mkBucket 10 1 0).consume 10 0).2).consume 1 0).2.consume 5 5).1 = true ∧
     ((((((TokenBucket.mkBucket 10 1 0).consume 10 0).2).consume 1 0).2.consume 5 5).2.consume 1 5).1
       = false) := by
  constructor
  · intro C r t0 calls pre post hC hr hns hchain hsplit
    subst hsplit
    have hpre : List.Chain' (fun a b => a ≤ b) (t0 :: pre.map Prod.snd) := by
      refine List.Chain'.prefix hchain ?_
      exact ⟨post.map Prod.snd, by simp⟩
    have := consumeRun_inv pre (TokenBucket.mkBucket C r t0)
      hC (le_of_lt hr) (by show (0 : ℚ) ≤ ((C : ℤ) : ℚ); exact_mod_cast hC)
      (le_refl _) hpre
      (fun p hp => hns p (List.mem_append.mpr (Or.inl hp)))
    refine ⟨this.1, ?_⟩
    have h2 := this.2.1
    rw [this.2.2] at h2
    exact h2
  · with_unfolding_all decide

/-- Witness for tokenBucket_invariant_and_scenario at capacity 10, rate 1,
calls [(10, 0)]. -/
theorem tokenBucket_invariant_and_scenario_witness :
    0 ≤ (consumeRun (TokenBucket.mkBucket 10 1 0) [((10 : ℤ), (0 : ℚ))]).tokens ∧
    (consumeRun (TokenBucket.mkBucket 10 1 0) [((10 : ℤ), (0 : ℚ))]).tokens ≤ ((10 : ℤ) : ℚ) :=
  tokenBucket_invariant_and_scenario.1 10 1 0 [(10, 0)] [(10, 0)] []
    (by decide) (by decide) (by with_unfolding_all decide)
    (by simp [List.chain'_cons]) (by decide)

/-- Claim C8 counterexample: on the reachable drained bucket (capacity 10,
rate 1, 0 tokens, last refill at t=0), consume(100) at t=5 fails, yet the
call changes both the token count (0 to 5, by the lazy refill) and the
last-refill timestamp (0 to 5) — a failed consume does not leave the state
unchanged. -/
theorem consume_failure_mutates_counterexample :
    (bDrained.consume 100 5).1 = false ∧
    ¬((bDrained.consume 100 5).2.tokens = bDrained.tokens) ∧
    ¬((bDrained.consume 100 5).2.last_refill = bDrained.last_refill) := by
  with_unfolding_all decide

/-- Claim C8 amended: consume(n) first performs the lazy refill (clamped
to capacity, updating last_refill to now); when the refilled count is
below n it fails and the state is exactly the refilled state — mutated by
the refill but by nothing else, so repeating the failed consume at the
same instant fails again without further change. -/
theorem consume_refill_frame (b : TokenBucket) (n : ℤ) (now : ℚ)
    (hfail : (b.consume n now).1 = false) :
    (b.consume n now).2 =
      { b with
        tokens := min ((b.capacity : ℚ)) (b.tokens + (now - b.last_refill) * b.refill_rate),
        last_refill := now } ∧
    min ((b.capacity : ℚ)) (b.tokens + (now - b.last_refill) * b.refill_rate) < (n : ℚ) ∧
    (b.consume n now).2.consume n now = (false, (b.consume n now).2) := by
  have hrefill : min ((b.capacity : ℚ)) (b.tokens + (now - b.last_refill) * b.refill_rate)
      < (n : ℚ) := by
    by_contra hcon
    push_neg at hcon
    have htrue : (b.consume n now).1 = true := by
      unfold TokenBucket.consume
      simp [hcon]
    rw [htrue] at hfail
    exact Bool.noConfusion hfail
  have hc : ¬((n : ℚ) ≤ min ((b.capacity : ℚ))
      (b.tokens + (now - b.last_refill) * b.refill_rate)) := not_le.mpr hrefill
  have hst : (b.consume n now).2 =
      { b with
        tokens := min ((b.capacity : ℚ)) (b.tokens + (now - b.last_refill) * b.refill_rate),
        last_refill := now } := by
    unfold TokenBucket.consume
    simp [hc]
  refine ⟨hst, hrefill, ?_⟩
  rw [hst]
  unfold TokenBucket.consume
  simp only [sub_self, zero_mul, add_zero]
  rw [← min_assoc, min_self]
  simp [hc]

/-- Witness for consume_refill_frame on the drained bucket. -/
theorem consume_refill_frame_witness :
    (bDrained.consume 100 5).1 = false ∧
    ((bDrained.consume 100 5).2 =
      { bDrained with
        tokens := min ((bDrained.capacity : ℚ))
          (bDrained.tokens + ((5 : ℚ) - bDrained.last_refill) * bDrained.refill_rate),
        last_refill := 5 } ∧
     min ((bDrained.capacity : ℚ))
       (bDrained.tokens + ((5 : ℚ) - bDrained.last_refill) * bDrained.refill_rate) < ((100 : ℤ) : ℚ) ∧
     (bDrained.consume 100 5).2.consume 100 5 = (false, (bDrained.consume 100 5).2)) :=
  ⟨by with_unfolding_all decide,
   consume_refill_frame bDrained 100 5 (by with_unfolding_all decide)⟩

/-- Claim C3: for a breaker with failure_threshold 3 and cooldown 60 s,
three consecutive failing calls from the fresh CLOSED state leave it OPEN
with the cooldown clock at the third failure time; while OPEN and within
the cooldown, every call is rejected unchanged (the protected function is
not invoked, whatever its outcome would be) with a remaining cooldown of
at most 60; once the cooldown has elapsed the next call runs as the
HALF_OPEN trial: success closes the breaker and resets the failure count
to 0, failure reopens it with the cooldown clock restarted at the new
failure time. -/
theorem circuitBreaker_lifecycle :
    (∀ t1 t2 t3 : ℚ,
      ((((CircuitBreaker.mkBreaker 3 60).call t1 false).2.call t2 false).2.call t3 false).2 =
        bOpen 3 t3) ∧
    (∀ (c : ℕ) (L now : ℚ) (o : Bool), 0 ≤ now - L → now - L < 60 →
      (bOpen c L).call now o = (CallOutcome.rejected (60 - (now - L)), bOpen c L) ∧
      0 ≤ (60 : ℚ) - (now - L) ∧ (60 : ℚ) - (now - L) ≤ 60) ∧
    (∀ (c : ℕ) (L now : ℚ), 3 ≤ c → 60 < now - L →
      (bOpen c L).call now true =
        (CallOutcome.succeeded,
         { failure_threshold := 3, timeout := 60, failure_count := 0,
           last_failure_time := some L, state := BreakerState.CLOSED }) ∧
      (bOpen c L).call now false =
        (CallOutcome.failed, bOpen (c + 1) now)) := by
  refine ⟨?_, ?_, ?_⟩
  · intro t1 t2 t3
    rfl
  · intro c L now o h0 h60
    have hcond : ¬((60 : ℚ) < now - L) := by linarith
    constructor
    · unfold CircuitBreaker.call bOpen
      simp [hcond]
    · constructor <;> linarith
  · intro c L now hc h60
    have hcond : (60 : ℚ) < now - L := h60
    have hthr : 3 ≤ c + 1 := by omega
    constructor
    · unfold CircuitBreaker.call bOpen
      simp [hcond]
    · unfold CircuitBreaker.call bOpen
      simp [hcond, hthr]

/-- Witness for circuitBreaker_lifecycle: the three parts instantiated at
concrete times (failures at 0, 1, 2; an in-cooldown call at 30; trial
calls at 100). -/
theorem circuitBreaker_lifecycle_witness :
    (((((CircuitBreaker.mkBreaker 3 60).call 0 false).2.call 1 false).2.call 2 false).2 =
      bOpen 3 2) ∧
    ((bOpen 3 2).call 30 true = (CallOutcome.rejected (60 - ((30 : ℚ) - 2)), bOpen 3 2) ∧
      0 ≤ (60 : ℚ) - ((30 : ℚ) - 2) ∧ (60 : ℚ) - ((30 : ℚ) - 2) ≤ 60) ∧
    ((bOpen 3 2).call 100 true =
      (CallOutcome.succeeded,
       { failure_threshold := 3, timeout := 60, failure_count := 0,
         last_failure_time := some 2, state := BreakerState.CLOSED }) ∧
     (bOpen 3 2).call 100 false = (CallOutcome.failed, bOpen (3 + 1) 100)) :=
  ⟨circuitBreaker_lifecycle.1 0 1 2,
   by
    have h := circuitBreaker_lifecycle.2.1 3 2 30 true
      (by norm_num) (by norm_num)
    simpa using h,
   by
    have h := circuitBreaker_lifecycle.2.2 3 2 100 (by norm_num) (by norm_num)
    simpa using h⟩

/-- Claim C5: for a rule with limit 3, window 60 s, no burst allowance and
unit cost, starting from a fresh window: the three checks at t=0 are
allowed, the fourth at t=0 is denied with retry_after exactly 60 (oldest
entry 0 + window 60 - now 0), and a check at t=61 is allowed again with
every stale entry pruned (the surviving window holds just the t=61
entry). -/
theorem slidingWindow_scenario :
    (localRun { limit := 3, window_seconds := 60 }
      [(0, 1), (0, 1), (0, 1), (0, 1), (61, 1)] []).1.map RateLimitResult.allowed =
      [true, true, true, false, true] ∧
    ((localRun { limit := 3, window_seconds := 60 }
      [(0, 1), (0, 1), (0, 1), (0, 1), (61, 1)] []).1.getD 3
        { allowed := true, limit := 0, remaining := 0, reset_time := 0 }).retry_after =
      some 60 ∧
    (localRun { limit := 3, window_seconds := 60 }
      [(0, 1), (0, 1), (0, 1), (0, 1), (61, 1)] []).2 = [61] := by
  with_unfolding_all decide

set_option maxRecDepth 100000 in
set_option maxHeartbeats 0 in
/-- Auxiliary: the API-key round trip does close when the randomly drawn
key identifier and secret happen to contain no underscore — evaluated
here with a concrete hash stand-in: authentication succeeds and returns
the owner and role of the generated record. -/
theorem auth_roundtrip_no_underscore :
    (authenticate_api_key idHash
      (some [((generate_api_key idHash ("u1") UserRole.BASIC APIKeyType.STANDARD ("") []
                keyIdOk rawKeyU 0).2.key_id,
              (generate_api_key idHash ("u1") UserRole.BASIC APIKeyType.STANDARD ("") []
                keyIdOk rawKeyU 0).2)]) []
      (generate_api_key idHash ("u1") UserRole.BASIC APIKeyType.STANDARD ("") []
        keyIdOk rawKeyU 0).1 none 0).1.success = true ∧
    (authenticate_api_key idHash
      (some [((generate_api_key idHash ("u1") UserRole.BASIC APIKeyType.STANDARD ("") []
                keyIdOk rawKeyU 0).2.key_id,
              (generate_api_key idHash ("u1") UserRole.BASIC APIKeyType.STANDARD ("") []
                keyIdOk rawKeyU 0).2)]) []
      (generate_api_key idHash ("u1") UserRole.BASIC APIKeyType.STANDARD ("") []
        keyIdOk rawKeyU 0).1 none 0).1.user_id = some ("u1") ∧
    (authenticate_api_key idHash
      (some [((generate_api_key idHash ("u1") UserRole.BASIC APIKeyType.STANDARD ("") []
                keyIdOk rawKeyU 0).2.key_id,
              (generate_api_key idHash ("u1") UserRole.BASIC APIKeyType.STANDARD ("") []
                keyIdOk rawKeyU 0).2)]) []
      (generate_api_key idHash ("u1") UserRole.BASIC APIKeyType.STANDARD ("") []
        keyIdOk rawKeyU 0).1 none 0).1.role = UserRole.BASIC := by
  with_unfolding_all decide


theorem authenticate_format_error (hash : String → String)
    (store : Option (List (String × APIKey))) (cache : List (String × CacheEntry))
    (apk : String) (client_ip : Option String) (now : ℚ)
    (h1 : apk.startsWith (api_key_start ++ underscoreStr) = true)
    (h2 : (apk.splitOn underscoreStr).length ≠ 4) :
    (authenticate_api_key hash store cache apk client_ip now).1 =
      { success := false, error := some errFormat } := by
  unfold authenticate_api_key
  rw [h1]
  simp [h2]

set_option maxRecDepth 100000 in
/-- Claim C1 (code divergence): keyIdU is a legitimate possible output of
secrets.token_urlsafe(16) — 22 base64url characters — that contains an
underscore.  A key generated from it splits into five underscore-delimited
segments instead of four, so authenticate_api_key rejects the very
credential generate_api_key just produced, with the format error, for
every hash function and at any time before expiry. -/
theorem generated_key_fails_format_check (hash : String → String) (now : ℚ) :
    urlsafeStr keyIdU = true ∧ keyIdU.length = 22 ∧
    urlsafeStr rawKeyU = true ∧ rawKeyU.length = 43 ∧
    ((generate_api_key hash ("u1") UserRole.BASIC APIKeyType.STANDARD ("") []
        keyIdU rawKeyU now).1.splitOn underscoreStr).length = 5 ∧
    (authenticate_api_key hash
      (some [((generate_api_key hash ("u1") UserRole.BASIC APIKeyType.STANDARD ("") []
                keyIdU rawKeyU now).2.key_id,
              (generate_api_key hash ("u1") UserRole.BASIC APIKeyType.STANDARD ("") []
                keyIdU rawKeyU now).2)]) []
      (generate_api_key hash ("u1") UserRole.BASIC APIKeyType.STANDARD ("") []
        keyIdU rawKeyU now).1 none now).1 =
      { success := false, error := some errFormat } := by
  have hsplit : ((generate_api_key hash ("u1") UserRole.BASIC APIKeyType.STANDARD ("") []
      keyIdU rawKeyU now).1.splitOn underscoreStr).length = 5 := by
    show ((api_key_start ++ underscoreStr ++ keyIdU ++ underscoreStr ++ rawKeyU).splitOn
      underscoreStr).length = 5
    with_unfolding_all decide
  refine ⟨by with_unfolding_all decide, by with_unfolding_all decide,
          by with_unfolding_all decide, by with_unfolding_all decide, hsplit, ?_⟩
  refine authenticate_format_error hash _ _ _ none now ?_ (by rw [hsplit]; decide)
  show ((api_key_start ++ underscoreStr ++ keyIdU ++ underscoreStr ++ rawKeyU).startsWith
    (api_key_start ++ underscoreStr)) = true
  with_unfolding_all decide

theorem authenticate_no_prefix_error (hash : String → String)
    (store : Option (List (String × APIKey))) (cache : List (String × CacheEntry))
    (apk : String) (client_ip : Option String) (now : ℚ)
    (h : apk.startsWith (api_key_start ++ underscoreStr) = false) :
    (authenticate_api_key hash store cache apk client_ip now).1 =
      { success := false, error := some errFormat } := by
  unfold authenticate_api_key
  rw [h]
  simp


theorem authenticate_hash_error (hash : String → String)
    (kv : List (String × APIKey)) (cache : List (String × CacheEntry))
    (apk : String) (client_ip : Option String) (now : ℚ) (rec : APIKey) (kid : String)
    (h1 : apk.startsWith (api_key_start ++ underscoreStr) = true)
    (h2 : (apk.splitOn underscoreStr).length = 4)
    (hkid : (apk.splitOn underscoreStr).getD 2 "" = kid)
    (hcache : getKey cache kid = none)
    (hres : getKey kv kid = some rec)
    (hmis : hash apk ≠ rec.key_hash) :
    (authenticate_api_key hash (some kv) cache apk client_ip now).1 =
      { success := false, error := some errHash } := by
  unfold authenticate_api_key
  rw [h1]
  simp only [Bool.not_true, Bool.false_eq_true, if_false, h2, hkid, hcache, hres, hmis,
    ne_eq, not_true_eq_false, not_false_eq_true, ite_true, ite_false]

/-- Claim C2 counterexample: the AuthResults for a malformed credential
and for a well-formed credential whose recomputed hash mismatches the
stored hash both fail, but carry different error strings, so the caller
can tell the two apart. -/
theorem authFailure_reasons_differ_counterexample :
    (authenticate_api_key idHash (some [(("id1"), recMismatch)]) [] ("nonsense") none 0).1.success
      = false ∧
    (authenticate_api_key idHash (some [(("id1"), recMismatch)]) [] wfKey none 0).1.success
      = false ∧
    (authenticate_api_key idHash (some [(("id1"), recMismatch)]) [] ("nonsense") none 0).1.error ≠
      (authenticate_api_key idHash (some [(("id1"), recMismatch)]) [] wfKey none 0).1.error := by
  with_unfolding_all decide

/-- Claim C2 amended: every malformed credential fails with the error
string of errFormat and every well-formed credential that resolves to a
stored record with a mismatching hash fails with the error string of
errHash; both are failures, but the two strings differ, so format errors
and hash mismatches are in fact distinguishable to the caller. -/
theorem authFailure_reasons (hash : String → String)
    (store : Option (List (String × APIKey))) (cache1 : List (String × CacheEntry))
    (k1 : String) (ip1 : Option String) (n1 : ℚ)
    (kv : List (String × APIKey)) (cache2 : List (String × CacheEntry))
    (k2 : String) (ip2 : Option String) (n2 : ℚ) (rec : APIKey) (kid : String)
    (hm : k1.startsWith (api_key_start ++ underscoreStr) = false ∨
          (k1.splitOn underscoreStr).length ≠ 4)
    (h1 : k2.startsWith (api_key_start ++ underscoreStr) = true)
    (h2 : (k2.splitOn underscoreStr).length = 4)
    (hkid : (k2.splitOn underscoreStr).getD 2 "" = kid)
    (hcache : getKey cache2 kid = none)
    (hres : getKey kv kid = some rec)
    (hmis : hash k2 ≠ rec.key_hash) :
    (authenticate_api_key hash store cache1 k1 ip1 n1).1 =
      { success := false, error := some errFormat } ∧
    (authenticate_api_key hash (some kv) cache2 k2 ip2 n2).1 =
      { success := false, error := some errHash } ∧
    errFormat ≠ errHash := by
  refine ⟨?_, authenticate_hash_error hash kv cache2 k2 ip2 n2 rec kid
    h1 h2 hkid hcache hres hmis, by decide⟩
  rcases hm with hma | hmb
  · exact authenticate_no_prefix_error hash store cache1 k1 ip1 n1 hma
  · by_cases hsw : k1.startsWith (api_key_start ++ underscoreStr) = true
    · exact authenticate_format_error hash store cache1 k1 ip1 n1 hsw hmb
    · exact authenticate_no_prefix_error hash store cache1 k1 ip1 n1 (by simpa using hsw)

/-- Witness for authFailure_reasons at the concrete malformed credential
"nonsense" and the well-formed mismatching credential wfKey. -/
theorem authFailure_reasons_witness :
    (authenticate_api_key idHash (some [(("id1"), recMismatch)]) [] ("nonsense") none 0).1 =
      { success := false, error := some errFormat } ∧
    (authenticate_api_key idHash (some [(("id1"), recMismatch)]) [] wfKey none 0).1 =
      { success := false, error := some errHash } ∧
    errFormat ≠ errHash :=
  authFailure_reasons idHash (some [(("id1"), recMismatch)]) [] ("nonsense") none 0
    [(("id1"), recMismatch)] [] wfKey none 0 recMismatch ("id1")
    (Or.inl (by with_unfolding_all decide))
    (by with_unfolding_all decide) (by with_unfolding_all decide)
    (by with_unfolding_all decide) (by with_unfolding_all decide)
    (by with_unfolding_all decide) (by with_unfolding_all decide)

theorem getKey_setKey_self {α : Type} [DecidableEq α] {β : Type}
    (l : List (α × β)) (k : α) (v : β) : getKey (setKey l k v) k = some v := by
  induction l with
  | nil => simp [setKey, getKey]
  | cons e rest ih =>
      by_cases h : e.1 = k
      · simp [setKey, getKey, h]
      · simp [setKey, getKey, h, ih]

theorem getKey_none_filter {α : Type} [DecidableEq α] {β : Type}
    (l : List (α × β)) (p : α × β → Bool) (k : α) (h : getKey l k = none) :
    getKey (l.filter p) k = none := by
  induction l with
  | nil => simp [getKey]
  | cons e rest ih =>
      by_cases he : e.1 = k
      · simp [getKey, he] at h
      · have h' : getKey rest k = none := by
          simpa [getKey, he] using h
        by_cases hp : p e = true
        · simp [List.filter, hp, getKey, he, ih h']
        · simp only [List.filter, Bool.not_eq_true] at hp ⊢
          rw [hp]
          exact ih h'

theorem getKey_some_filter {α : Type} [DecidableEq α] {β : Type}
    (l : List (α × β)) (p : α × β → Bool) (k : α) (v : β)
    (h : getKey l k = some v) (hp : p (k, v) = true) :
    getKey (l.filter p) k = some v := by
  induction l with
  | nil => simp [getKey] at h
  | cons e rest ih =>
      by_cases he : e.1 = k
      · have hv : e.2 = v := by simpa [getKey, he] using h
        have hep : p e = true := by
          have : e = (k, v) := by
            cases e; simp_all
          rw [this]; exact hp
        simp [List.filter, hep, getKey, he, hv]
      · have h' : getKey rest k = some v := by simpa [getKey, he] using h
        by_cases hpe : p e = true
        · simp [List.filter, hpe, getKey, he, ih h']
        · simp only [List.filter, Bool.not_eq_true] at hpe ⊢
          rw [hpe]
          exact ih h'

theorem is_suspicious_all_blocked (ip : String) (t' : ℚ) :
    ∀ (ts : List ℚ) (st : DDoSState),
    getKey st.blocked_ips ip = some t' → (∀ u ∈ ts, u - t' < 86400) →
    is_suspicious_all st ip ts = true := by
  intro ts
  induction ts with
  | nil => intro st _ _; rfl
  | cons u us ih =>
      intro st hb hu
      have hfb : getKey (st.blocked_ips.filter (fun e => decide (u - e.2 < 86400))) ip
          = some t' :=
        getKey_some_filter _ _ _ _ hb (by simp; exact hu u (List.mem_cons_self _ _))
      unfold is_suspicious_all is_suspicious
      simp only [hfb, Option.isSome_some, if_true]
      exact ih _ hfb (fun w hw => hu w (List.mem_cons_of_mem _ hw))

/-- Claim C9: for an IP with no standing block entry, mark_suspicious at
time t followed by is_suspicious at t' with 0 ≤ t'-t < 300 promotes the
IP to blocked (stamped t') and answers true; thereafter every
is_suspicious call within 86400 s of the block answers true; moreover
is_suspicious always prunes suspicion entries older than 3600 s, and
answers true immediately whenever the pruned block map still holds the
IP. -/
theorem ddos_escalation (st : DDoSState) (ip : String) (t t' : ℚ) (ts : List ℚ)
    (hb : getKey st.blocked_ips ip = none)
    (h0 : 0 ≤ t' - t) (h300 : t' - t < 300)
    (hts : ∀ u ∈ ts, u - t' < 86400) :
    (is_suspicious (mark_suspicious st ip t) ip t').1 = true ∧
    getKey (is_suspicious (mark_suspicious st ip t) ip t').2.blocked_ips ip = some t' ∧
    is_suspicious_all (is_suspicious (mark_suspicious st ip t) ip t').2 ip ts = true ∧
    (∀ (st2 : DDoSState) (now2 : ℚ),
      (is_suspicious st2 ip now2).2.suspicious_ips =
        st2.suspicious_ips.filter (fun e => decide (now2 - e.2 < 3600)) ∧
      ((getKey (st2.blocked_ips.filter (fun e => decide (now2 - e.2 < 86400))) ip).isSome = true →
        (is_suspicious st2 ip now2).1 = true)) := by
  have hfb : getKey ((mark_suspicious st ip t).blocked_ips.filter
      (fun e => decide (t' - e.2 < 86400))) ip = none :=
    getKey_none_filter _ _ _ (by simpa [mark_suspicious] using hb)
  have hfs : getKey ((mark_suspicious st ip t).suspicious_ips.filter
      (fun e => decide (t' - e.2 < 3600))) ip = some t := by
    refine getKey_some_filter _ _ _ _ ?_ (by simp; linarith)
    simp only [mark_suspicious]
    exact getKey_setKey_self _ _ _
  have hstep : is_suspicious (mark_suspicious st ip t) ip t' =
      (true,
       { suspicious_ips := (mark_suspicious st ip t).suspicious_ips.filter
           (fun e => decide (t' - e.2 < 3600)),
         blocked_ips := setKey ((mark_suspicious st ip t).blocked_ips.filter
           (fun e => decide (t' - e.2 < 86400))) ip t' }) := by
    unfold is_suspicious
    simp only [hfb, Option.isSome_none, Bool.false_eq_true, if_false, hfs]
    simp [h300]
  refine ⟨by rw [hstep], ?_, ?_, ?_⟩
  · rw [hstep]
    exact getKey_setKey_self _ _ _
  · rw [hstep]
    exact is_suspicious_all_blocked ip t' ts _ (getKey_setKey_self _ _ _) hts
  · intro st2 now2
    constructor
    · unfold is_suspicious
      by_cases hbs : (getKey (st2.blocked_ips.filter
          (fun e => decide (now2 - e.2 < 86400))) ip).isSome = true
      · simp only [hbs, if_true]
      · simp only [hbs, Bool.false_eq_true, if_false]
        cases hgk : getKey (st2.suspicious_ips.filter
            (fun e => decide (now2 - e.2 < 3600))) ip with
        | none => simp [hgk]
        | some ts2 =>
            simp only [hgk]
            by_cases hlt : now2 - ts2 < 300
            · simp [hlt]
            · simp [hlt]
    · intro hbs
      unfold is_suspicious
      simp only [hbs, if_true]

/-- Witness for ddos_escalation: a fresh state, mark at t=0, promotion at
t'=100, follow-up calls at 200 and 86000. -/
theorem ddos_escalation_witness :
    (is_suspicious (mark_suspicious (DDoSState.mk [] []) ("1.2.3.4") 0) ("1.2.3.4") 100).1
      = true ∧
    getKey (is_suspicious (mark_suspicious (DDoSState.mk [] []) ("1.2.3.4") 0)
      ("1.2.3.4") 100).2.blocked_ips ("1.2.3.4") = some 100 ∧
    is_suspicious_all (is_suspicious (mark_suspicious (DDoSState.mk [] [])
      ("1.2.3.4") 0) ("1.2.3.4") 100).2 ("1.2.3.4") [200, 86000] = true ∧
    (∀ (st2 : DDoSState) (now2 : ℚ),
      (is_suspicious st2 ("1.2.3.4") now2).2.suspicious_ips =
        st2.suspicious_ips.filter (fun e => decide (now2 - e.2 < 3600)) ∧
      ((getKey (st2.blocked_ips.filter (fun e => decide (now2 - e.2 < 86400)))
          ("1.2.3.4")).isSome = true →
        (is_suspicious st2 ("1.2.3.4") now2).1 = true)) :=
  ddos_escalation (DDoSState.mk [] []) ("1.2.3.4") 0 100 [200, 86000]
    (by rfl) (by with_unfolding_all decide) (by with_unfolding_all decide)
    (by with_unfolding_all decide)

/-- Claim C6 counterexample: with the per-second window already holding an
entry at t=95 (denial with retry_after 5 at t=100) and the per-minute
window an entry at t=50 (denial with retry_after 50 at t=100),
check_multiple_limits returns the FIRST denial, retry_after 5 — not the
most restrictive applicable denial, since the later rule alone would deny
with retry_after 50. -/
theorem checkMultiple_not_most_restrictive_counterexample :
    (check_multiple_limits stC6 ("u")
      [(RateLimitType.REQUESTS_PER_SECOND, ruleA),
       (RateLimitType.REQUESTS_PER_MINUTE, ruleB)] 100).1.allowed = false ∧
    (check_multiple_limits stC6 ("u")
      [(RateLimitType.REQUESTS_PER_SECOND, ruleA),
       (RateLimitType.REQUESTS_PER_MINUTE, ruleB)] 100).1.retry_after = some 5 ∧
    (is_allowed stC6 ("u") RateLimitType.REQUESTS_PER_MINUTE (some ruleB) 1 100).1.allowed
      = false ∧
    (is_allowed stC6 ("u") RateLimitType.REQUESTS_PER_MINUTE (some ruleB) 1 100).1.retry_after
      = some 50 ∧
    (5 : ℤ) < 50 := by
  with_unfolding_all decide

/-- Claim C6 amended: check_multiple_limits evaluates the rules in list
order with cost 1 and allows (with the permissive summary result) exactly
when every rule allows; on the first denying rule it returns that rule's
result immediately, the final state being the state right after that
denial, so later rules are never evaluated — but the denial returned is
the first one in list order, not necessarily the most restrictive. -/
theorem checkMultiple_short_circuit (identifier : String) (now : ℚ) :
    (∀ (limits : List (RateLimitType × RateLimitRule)) (st st1 : LimiterState),
      allAllowedRun st identifier limits now = some st1 →
      check_multiple_limits st identifier limits now =
        ({ allowed := true, limit := 999999, remaining := 999999, reset_time := 0 }, st1)) ∧
    (∀ (pre post : List (RateLimitType × RateLimitRule)) (ty : RateLimitType)
       (r : RateLimitRule) (st st1 : LimiterState),
      allAllowedRun st identifier pre now = some st1 →
      (is_allowed st1 identifier ty (some r) 1 now).1.allowed = false →
      check_multiple_limits st identifier (pre ++ (ty, r) :: post) now =
        ((is_allowed st1 identifier ty (some r) 1 now).1,
         (is_allowed st1 identifier ty (some r) 1 now).2)) := by
  constructor
  · intro limits
    induction limits with
    | nil =>
        intro st st1 h
        simp only [allAllowedRun] at h
        cases h
        rfl
    | cons hd rest ih =>
        obtain ⟨ty, r⟩ := hd
        intro st st1 h
        by_cases hall : (is_allowed st identifier ty (some r) 1 now).1.allowed = true
        · have h' : allAllowedRun (is_allowed st identifier ty (some r) 1 now).2
              identifier rest now = some st1 := by
            simpa [allAllowedRun, hall] using h
          have := ih (is_allowed st identifier ty (some r) 1 now).2 st1 h'
          simpa [check_multiple_limits, hall] using this
        · simp [allAllowedRun, hall] at h
  · intro pre
    induction pre with
    | nil =>
        intro post ty r st st1 h hden
        simp only [allAllowedRun] at h
        cases h
        simp [check_multiple_limits, hden]
    | cons hd pres ih =>
        obtain ⟨ty0, r0⟩ := hd
        intro post ty r st st1 h hden
        by_cases hall : (is_allowed st identifier ty0 (some r0) 1 now).1.allowed = true
        · have h' : allAllowedRun (is_allowed st identifier ty0 (some r0) 1 now).2
              identifier pres now = some st1 := by
            simpa [allAllowedRun, hall] using h
          have := ih post ty r (is_allowed st identifier ty0 (some r0) 1 now).2 st1 h' hden
          simpa [check_multiple_limits, hall] using this
        · simp [allAllowedRun, hall] at h

/-- Witness for checkMultiple_short_circuit: an empty prefix before the
denying per-second rule of the counterexample state, and the all-pass
case on a fresh state. -/
theorem checkMultiple_short_circuit_witness :
    check_multiple_limits (LimiterState.mk [] []) ("u")
      [(RateLimitType.REQUESTS_PER_SECOND, ruleA)] 100 =
      ({ allowed := true, limit := 999999, remaining := 999999, reset_time := 0 },
       (is_allowed (LimiterState.mk [] []) ("u")
         RateLimitType.REQUESTS_PER_SECOND (some ruleA) 1 100).2) ∧
    check_multiple_limits stC6 ("u")
      [(RateLimitType.REQUESTS_PER_SECOND, ruleA),
       (RateLimitType.REQUESTS_PER_MINUTE, ruleB)] 100 =
      ((is_allowed stC6 ("u") RateLimitType.REQUESTS_PER_SECOND (some ruleA) 1 100).1,
       (is_allowed stC6 ("u") RateLimitType.REQUESTS_PER_SECOND (some ruleA) 1 100).2) :=
  ⟨(checkMultiple_short_circuit ("u") 100).1
     [(RateLimitType.REQUESTS_PER_SECOND, ruleA)] (LimiterState.mk [] []) _
     (by with_unfolding_all rfl),
   (checkMultiple_short_circuit ("u") 100).2
     [] [(RateLimitType.REQUESTS_PER_MINUTE, ruleB)]
     RateLimitType.REQUESTS_PER_SECOND ruleA stC6 stC6 (by rfl)
     (by with_unfolding_all decide)⟩

theorem pruneWindow_eq_filter (c : ℚ) : ∀ (w : List ℚ),
    List.Pairwise (fun a b => a ≤ b) w →
    pruneWindow w c = w.filter (fun x => !decide (x ≤ c)) := by
  intro w
  induction w with
  | nil => intro _; rfl
  | cons t rest ih =>
      intro hp
      rw [List.pairwise_cons] at hp
      by_cases h : t ≤ c
      · rw [show pruneWindow (t :: rest) c = pruneWindow rest c by simp [pruneWindow, h]]
        rw [ih hp.2]
        simp [List.filter, h]
      · rw [show pruneWindow (t :: rest) c = t :: rest by simp [pruneWindow, h]]
        have hall : ∀ x ∈ rest, (!decide (x ≤ c)) = true := by
          intro x hx
          have hx1 := hp.1 x hx
          have hnx : ¬(x ≤ c) := fun hxc => h (le_trans hx1 hxc)
          simp [hnx]
        rw [show List.filter (fun x => !decide (x ≤ c)) (t :: rest) =
            t :: List.filter (fun x => !decide (x ≤ c)) rest by simp [List.filter, h]]
        rw [List.filter_eq_self.mpr hall]

theorem map_snd_filter_score (c : ℚ) : ∀ (z : List (ℕ × ℚ)), (∀ e ∈ z, 0 ≤ e.2) →
    (z.filter (redisPruneKeep c)).map Prod.snd =
    (z.map Prod.snd).filter (fun x => !decide (x ≤ c)) := by
  intro z
  induction z with
  | nil => intro _; rfl
  | cons e rest ih =>
      intro hz
      have h0 : 0 ≤ e.2 := hz e (List.mem_cons_self _ _)
      have ih' := ih (fun x hx => hz x (List.mem_cons_of_mem _ hx))
      by_cases hsc : e.2 ≤ c
      · have hc1 : redisPruneKeep c e = false := by simp [redisPruneKeep, h0, hsc]
        have hc2 : (!(decide (e.2 ≤ c))) = false := by simp [hsc]
        rw [show (e :: rest).map Prod.snd = e.2 :: rest.map Prod.snd from rfl]
        rw [List.filter_cons, List.filter_cons, hc1, hc2]
        simp only [Bool.false_eq_true, if_false]
        exact ih'
      · have hc1 : redisPruneKeep c e = true := by simp [redisPruneKeep, hsc]
        have hc2 : (!(decide (e.2 ≤ c))) = true := by simp [hsc]
        rw [show (e :: rest).map Prod.snd = e.2 :: rest.map Prod.snd from rfl]
        rw [List.filter_cons, List.filter_cons, hc1, hc2]
        simp only [if_true]
        rw [show (e :: List.filter (redisPruneKeep c) rest).map Prod.snd =
            e.2 :: (List.filter (redisPruneKeep c) rest).map Prod.snd
          from rfl]
        rw [ih']

theorem zaddSorted_append (s : ℚ) (m : ℕ) : ∀ (z : List (ℕ × ℚ)),
    (∀ e ∈ z, e.2 ≤ s) → zaddSorted z m s = z ++ [(m, s)] := by
  intro z
  induction z with
  | nil => intro _; rfl
  | cons e rest ih =>
      intro hz
      have h1 : ¬(s < e.2) := not_lt.mpr (hz e (List.mem_cons_self _ _))
      rw [show zaddSorted (e :: rest) m s =
          e :: zaddSorted rest m s by simp [zaddSorted, h1]]
      rw [ih (fun x hx => hz x (List.mem_cons_of_mem _ hx))]
      rfl

theorem filter_ne_fresh (s : ℚ) (m : ℕ) : ∀ (z : List (ℕ × ℚ)),
    (∀ e ∈ z, e.1 ≠ m) →
    (z ++ [(m, s)]).filter (keepNotMember m) = z := by
  intro z
  induction z with
  | nil => intro _; simp [List.filter, keepNotMember]
  | cons e rest ih =>
      intro hz
      have h1 : keepNotMember m e = true := by
        simp [keepNotMember, hz e (List.mem_cons_self _ _)]
      rw [show ((e :: rest) ++ [(m, s)]) = e :: (rest ++ [(m, s)]) from rfl]
      rw [List.filter_cons, h1]
      simp only [if_true]
      rw [ih (fun x hx => hz x (List.mem_cons_of_mem _ hx))]

theorem window_step_equiv (rule : RateLimitRule) (cost now : ℚ) (w : List ℚ)
    (z : List (ℕ × ℚ)) (m : ℕ)
    (hcpr : rule.cost_per_request = 1)
    (hmap : z.map Prod.snd = w)
    (hsort : List.Pairwise (fun a b => a ≤ b) w)
    (hw : ∀ x ∈ w, 0 ≤ x ∧ x ≤ now)
    (hnow : 0 ≤ now)
    (hfresh : ∀ e ∈ z, e.1 < m) :
    projRL (local_window_limit rule cost now w).1 =
      projRL (redis_rate_limit rule cost now m z).1 ∧
    (redis_rate_limit rule cost now m z).2.map Prod.snd =
      (local_window_limit rule cost now w).2 ∧
    List.Pairwise (fun a b => a ≤ b) (local_window_limit rule cost now w).2 ∧
    (∀ x ∈ (local_window_limit rule cost now w).2, 0 ≤ x ∧ x ≤ now) ∧
    (∀ e ∈ (redis_rate_limit rule cost now m z).2, e.1 < m + 1) := by
  have hz0 : ∀ e ∈ z, 0 ≤ e.2 := by
    intro e he
    exact (hw e.2 (by rw [← hmap]; exact List.mem_map_of_mem Prod.snd he)).1
  have hw1f : pruneWindow w (now - (rule.window_seconds : ℚ)) =
      w.filter (fun x => !decide (x ≤ now - (rule.window_seconds : ℚ))) :=
    pruneWindow_eq_filter _ w hsort
  have hmap1 : (z.filter (redisPruneKeep (now - (rule.window_seconds : ℚ)))).map Prod.snd =
      pruneWindow w (now - (rule.window_seconds : ℚ)) := by
    rw [hw1f, ← hmap]
    exact map_snd_filter_score _ z hz0
  have hlen : (z.filter (redisPruneKeep (now - (rule.window_seconds : ℚ)))).length =
      (pruneWindow w (now - (rule.window_seconds : ℚ))).length := by
    rw [← hmap1]
    simp
  have hw1w : ∀ x ∈ pruneWindow w (now - (rule.window_seconds : ℚ)), x ∈ w := by
    rw [hw1f]
    intro x hx
    exact (List.mem_filter.mp hx).1
  have hz1z : ∀ e ∈ z.filter (redisPruneKeep (now - (rule.window_seconds : ℚ))), e ∈ z :=
    fun e he => (List.mem_filter.mp he).1
  have hz1s : ∀ e ∈ z.filter (redisPruneKeep (now - (rule.window_seconds : ℚ))),
      e.2 ≤ now := by
    intro e he
    refine (hw e.2 ?_).2
    rw [← hmap]
    exact List.mem_map_of_mem Prod.snd (hz1z e he)
  have hfresh1 : ∀ e ∈ z.filter (redisPruneKeep (now - (rule.window_seconds : ℚ))),
      e.1 ≠ m :=
    fun e he => Nat.ne_of_lt (hfresh e (hz1z e he))
  have hzadd : zaddSorted (z.filter (redisPruneKeep (now - (rule.window_seconds : ℚ)))) m now =
      z.filter (redisPruneKeep (now - (rule.window_seconds : ℚ))) ++ [(m, now)] :=
    zaddSorted_append now m _ hz1s
  have hz3 : (zaddSorted (z.filter (redisPruneKeep (now - (rule.window_seconds : ℚ)))) m
      now).filter (keepNotMember m) =
      z.filter (redisPruneKeep (now - (rule.window_seconds : ℚ))) := by
    rw [hzadd]
    exact filter_ne_fresh now m _ hfresh1
  by_cases hc : ((pruneWindow w (now - (rule.window_seconds : ℚ))).length : ℚ) + cost ≤
      (rule.limit : ℚ)
  · have hcz : ((z.filter (redisPruneKeep (now - (rule.window_seconds : ℚ)))).length : ℚ) *
        rule.cost_per_request + cost ≤ (rule.limit : ℚ) := by
      rw [hcpr, mul_one, hlen]
      exact hc
    have hlocal : local_window_limit rule cost now w =
        ({ allowed := true, limit := rule.limit,
           remaining := truncQ ((rule.limit : ℚ) -
             ((pruneWindow w (now - (rule.window_seconds : ℚ))).length : ℚ) - cost),
           reset_time := truncQ (now + (rule.window_seconds : ℚ)),
           cost_used := cost },
         pruneWindow w (now - (rule.window_seconds : ℚ)) ++ [now]) := by
      unfold local_window_limit
      simp [hc]
    have hredis : redis_rate_limit rule cost now m z =
        ({ allowed := true, limit := rule.limit,
           remaining := truncQ ((rule.limit : ℚ) -
             ((z.filter (redisPruneKeep (now - (rule.window_seconds : ℚ)))).length : ℚ) *
               rule.cost_per_request - cost),
           reset_time := truncQ (now + (rule.window_seconds : ℚ)),
           cost_used := cost },
         z.filter (redisPruneKeep (now - (rule.window_seconds : ℚ))) ++ [(m, now)]) := by
      unfold redis_rate_limit
      simp [hzadd, hcz]
    rw [hlocal, hredis]
    refine ⟨?_, ?_, ?_, ?_, ?_⟩
    · unfold projRL
      simp only [hcpr, mul_one, hlen]
    · rw [List.map_append, hmap1]
      rfl
    · rw [List.pairwise_append]
      refine ⟨?_, List.pairwise_singleton _ _, ?_⟩
      · rw [hw1f]
        exact hsort.filter _
      · intro a ha b hb
        rw [List.mem_singleton] at hb
        subst hb
        exact (hw a (hw1w a ha)).2
    · intro x hx
      rcases List.mem_append.mp hx with hx1 | hx2
      · exact hw x (hw1w x hx1)
      · rw [List.mem_singleton] at hx2
        subst hx2
        exact ⟨hnow, le_refl _⟩
    · intro e he
      rcases List.mem_append.mp he with he1 | he2
      · exact Nat.lt_succ_of_lt (hfresh e (hz1z e he1))
      · rw [List.mem_singleton] at he2
        subst he2
        exact Nat.lt_succ_self m
  · have hcz : ¬(((z.filter (redisPruneKeep (now - (rule.window_seconds : ℚ)))).length : ℚ) *
        rule.cost_per_request + cost ≤ (rule.limit : ℚ)) := by
      rw [hcpr, mul_one, hlen]
      exact hc
    have hlocal : local_window_limit rule cost now w =
        ({ allowed := false, limit := rule.limit, remaining := 0,
           reset_time := truncQ (now + (rule.window_seconds : ℚ)),
           retry_after := some (max 1 (truncQ
             ((pruneWindow w (now - (rule.window_seconds : ℚ))).headD now +
              (rule.window_seconds : ℚ) - now))),
           cost_used := 0, reason := some reasonWindow },
         pruneWindow w (now - (rule.window_seconds : ℚ))) := by
      unfold local_window_limit
      simp [hc]
    have hredis : redis_rate_limit rule cost now m z =
        ({ allowed := false, limit := rule.limit, remaining := 0,
           reset_time := truncQ (now + (rule.window_seconds : ℚ)),
           retry_after := some (max 1
             (match (z.filter (redisPruneKeep (now - (rule.window_seconds : ℚ)))).head? with
              | some e => truncQ (e.2 + (rule.window_seconds : ℚ) - now)
              | none => rule.window_seconds)),
           cost_used := 0, reason := some reasonRedis },
         z.filter (redisPruneKeep (now - (rule.window_seconds : ℚ)))) := by
      unfold redis_rate_limit
      simp [hz3, hcz]
    have hheads : (pruneWindow w (now - (rule.window_seconds : ℚ))).head? =
        (z.filter (redisPruneKeep (now - (rule.window_seconds : ℚ)))).head?.map Prod.snd := by
      rw [← hmap1, List.head?_map]
    rw [hlocal, hredis]
    refine ⟨?_, hmap1, ?_, ?_, ?_⟩
    · unfold projRL
      simp only []
      cases hh : (z.filter (redisPruneKeep (now - (rule.window_seconds : ℚ)))).head? with
      | none =>
          rw [hh] at hheads
          rw [show (pruneWindow w (now - (rule.window_seconds : ℚ))).headD now =
              now by rw [List.headD_eq_head?_getD, hheads]; rfl]
          rw [show now + (rule.window_seconds : ℚ) - now = ((rule.window_seconds : ℤ) : ℚ)
            by ring]
          rw [truncQ_intCast]
      | some e =>
          rw [hh] at hheads
          rw [show (pruneWindow w (now - (rule.window_seconds : ℚ))).headD now =
              e.2 by rw [List.headD_eq_head?_getD, hheads]; rfl]
    · rw [hw1f]
      exact hsort.filter _
    · intro x hx
      exact hw x (hw1w x hx)
    · intro e he
      exact Nat.lt_succ_of_lt (hfresh e (hz1z e he))

theorem window_run_equiv (rule : RateLimitRule) (hcpr : rule.cost_per_request = 1) :
    ∀ (calls : List (ℚ × ℚ)) (t0 : ℚ) (w : List ℚ) (z : List (ℕ × ℚ)) (c : ℕ),
    z.map Prod.snd = w →
    List.Pairwise (fun a b => a ≤ b) w →
    (∀ x ∈ w, 0 ≤ x ∧ x ≤ t0) →
    0 ≤ t0 →
    (∀ e ∈ z, e.1 < c) →
    List.Chain' (fun a b => a ≤ b) (t0 :: calls.map Prod.fst) →
    (localRun rule calls w).1.map projRL = (redisRun rule calls z c).1.map projRL := by
  intro calls
  induction calls with
  | nil => intro t0 w z c _ _ _ _ _ _; rfl
  | cons hd rest ih =>
      obtain ⟨now, cost⟩ := hd
      intro t0 w z c hmap hsort hbnd ht0 hfresh hchain
      have hchain' := List.chain'_cons.mp hchain
      have ht0now : t0 ≤ now := hchain'.1
      have hw : ∀ x ∈ w, 0 ≤ x ∧ x ≤ now :=
        fun x hx => ⟨(hbnd x hx).1, le_trans (hbnd x hx).2 ht0now⟩
      have hnow : 0 ≤ now := le_trans ht0 ht0now
      have step := window_step_equiv rule cost now w z c hcpr hmap hsort hw hnow hfresh
      have htail := ih now (local_window_limit rule cost now w).2
        (redis_rate_limit rule cost now c z).2 (c + 1)
        step.2.1 step.2.2.1 step.2.2.2.1 hnow step.2.2.2.2 hchain'.2
      rw [show localRun rule ((now, cost) :: rest) w =
          ((local_window_limit rule cost now w).1 ::
            (localRun rule rest (local_window_limit rule cost now w).2).1,
           (localRun rule rest (local_window_limit rule cost now w).2).2) from rfl]
      rw [show redisRun rule ((now, cost) :: rest) z c =
          ((redis_rate_limit rule cost now c z).1 ::
            (redisRun rule rest (redis_rate_limit rule cost now c z).2 (c + 1)).1,
           (redisRun rule rest (redis_rate_limit rule cost now c z).2 (c + 1)).2) from rfl]
      rw [List.map_cons, List.map_cons, step.1, htail]

set_option maxRecDepth 10000 in
/-- Claim C4 counterexample: the two paths are not equivalent in general.
With cost_per_request = 2 (limit 3, window 60), the third unit-cost check
at t=0 is allowed by the local sliding window but denied by the
distributed path, which multiplies the window count by cost_per_request
while the local path ignores it.  With a burst allowance (burst 5, limit
3, window 60), the fourth unit-cost check at t=0 is allowed by the local
path, which switches to a 5-token bucket, but denied by the distributed
path, which always counts the sliding window. -/
theorem localRedis_divergence_counterexample :
    (((localRun ruleCpr2 [(0, 1), (0, 1), (0, 1)] []).1.getD 2
        { allowed := false, limit := 0, remaining := 0, reset_time := 0 }).allowed = true ∧
     ((redisRun ruleCpr2 [(0, 1), (0, 1), (0, 1)] [] 0).1.getD 2
        { allowed := true, limit := 0, remaining := 0, reset_time := 0 }).allowed = false) ∧
    ((local_rate_limit (local_rate_limit (local_rate_limit (local_rate_limit
        (LimiterState.mk [] []) ("k") ruleBurst 1 0).2 ("k") ruleBurst 1 0).2
        ("k") ruleBurst 1 0).2 ("k") ruleBurst 1 0).1.allowed = true ∧
     ((redisRun ruleBurst [(0, 1), (0, 1), (0, 1), (0, 1)] [] 0).1.getD 3
        { allowed := true, limit := 0, remaining := 0, reset_time := 0 }).allowed = false) := by
  with_unfolding_all decide

/-- Claim C4 amended: for rules without a (truthy) burst allowance the
local path is the sliding window on the key's deque, and for such rules
with cost_per_request = 1 the local and distributed sliding windows,
started empty and driven by the same sequential checks at non-decreasing
non-negative timestamps, return the same admission triple (allowed,
remaining, retry_after) at every call. -/
theorem localRedis_equiv (rule : RateLimitRule)
    (hburst : truthyOpt rule.burst_limit = false) (hcpr : rule.cost_per_request = 1)
    (calls : List (ℚ × ℚ))
    (hmono : List.Chain' (fun a b => a ≤ b) (calls.map Prod.fst))
    (hpos : ∀ p ∈ calls, 0 ≤ p.1) :
    (∀ (st : LimiterState) (key : String) (cost now : ℚ),
      local_rate_limit st key rule cost now =
        ((local_window_limit rule cost now ((getKey st.local_windows key).getD [])).1,
         LimiterState.mk st.local_buckets
           (setKey st.local_windows key
             (local_window_limit rule cost now
               ((getKey st.local_windows key).getD [])).2))) ∧
    (localRun rule calls []).1.map projRL = (redisRun rule calls [] 0).1.map projRL := by
  constructor
  · intro st key cost now
    unfold local_rate_limit
    rw [hburst]
    simp
  · have hch : List.Chain' (fun a b => a ≤ b) ((0 : ℚ) :: calls.map Prod.fst) := by
      cases calls with
      | nil => simp
      | cons p rest =>
          rw [List.map_cons]
          exact List.chain'_cons.mpr ⟨hpos p (List.mem_cons_self _ _), by
            simpa using hmono⟩
    exact window_run_equiv rule hcpr calls 0 [] [] 0 rfl (by simp) (by simp)
      (le_refl 0) (by simp) hch

/-- Witness for localRedis_equiv: limit 3, window 60, two unit-cost
checks at t=0 and t=30. -/
theorem localRedis_equiv_witness :
    (∀ (st : LimiterState) (key : String) (cost now : ℚ),
      local_rate_limit st key ruleC4 cost now =
        ((local_window_limit ruleC4 cost now ((getKey st.local_windows key).getD [])).1,
         LimiterState.mk st.local_buckets
           (setKey st.local_windows key
             (local_window_limit ruleC4 cost now
               ((getKey st.local_windows key).getD [])).2))) ∧
    (localRun ruleC4 [(0, 1), (30, 1)] []).1.map projRL =
      (redisRun ruleC4 [(0, 1), (30, 1)] [] 0).1.map projRL :=
  localRedis_equiv ruleC4 (by rfl) (by rfl)
    [(0, 1), (30, 1)] (by simp [List.chain'_cons]) (by with_unfolding_all decide)
